import Mathlib

/-!
Verification development for the msgpack-es MessagePack codec.

The definitions below are a shallow embedding of the settled module
implementation of the library:

* the encoding module (module-level growable buffer, smallest-width tag
  selection, container and extension writers, the public encode and
  encodeView entry points);
* the decoding module (cursor-based reads, the 256-entry tag dispatch
  table, container reconstruction, the speculative object-vs-ES6-Map
  strategy for MessagePack map values, extension lookup);
* the built-in Date extension (MessagePack timestamp, extension id -1).

Machine integers are modelled as Nat / Int with explicit wrapping
(emod by 256, 2^16, 2^32, 2^64) exactly where the JavaScript DataView
setters and getters wrap.  Byte buffers are lists of Nat that are kept
below 256 by construction.  Fallible code returns Except.
-/

namespace MsgpackES

/-- Modelled from the spec: the constants module of the repository is not
among the sources; only its import sites are.  Per the specification, all
length caps are at 2^32 - 1 bytes and the constant is used wherever the
unsigned 32-bit range boundary is needed, so U32_CAP is 2^32.  The draft
class implementation in the sources uses Math.pow(2, 32) at the exact same
branch positions, corroborating the value. -/
def U32_CAP : Nat := 2 ^ 32

/-- Browser global named length.  The third guard of the source function
writeBytes reads the ambient binding named length instead of data.length;
in a browser module that binding resolves to window.length, which is 0 for
a window that has no frames.  We embed that ambient value explicitly. -/
def ambientWindowLength : Nat := 0

/-- Big-endian bytes of a 16-bit value (value already reduced below 2^16). -/
def u16BE (v : Nat) : List Nat := [v / 256 % 256, v % 256]

/-- Big-endian bytes of a 32-bit value (value already reduced below 2^32). -/
def u32BE (v : Nat) : List Nat :=
  [v / 2 ^ 24 % 256, v / 2 ^ 16 % 256, v / 256 % 256, v % 256]

/-- Big-endian bytes of a 64-bit value (value already reduced below 2^64). -/
def u64BE (v : Nat) : List Nat := u32BE (v / 2 ^ 32 % 2 ^ 32) ++ u32BE (v % 2 ^ 32)

/-- Number.isSafeInteger for an integer-valued JavaScript number. -/
def isSafeInteger (n : Int) : Bool := n.natAbs ≤ 2 ^ 53 - 1

/-- ToInt32: wrap an integer into the signed 32-bit range, as JavaScript
bitwise operators do. -/
def toInt32 (x : Int) : Int :=
  let m := x.emod (2 ^ 32)
  if m ≥ 2 ^ 31 then m - 2 ^ 32 else m

/-- State of the module-level encoding buffer: the source keeps a
Uint8Array buffer, a DataView view over the same ArrayBuffer, and a write
offset.  Buffer and view expose the same bytes, so the model keeps one
byte list together with the offset. -/
structure EncState where
  buffer : List Nat
  offset : Nat
deriving DecidableEq

/-- Overwrite the bytes of buf starting at position pos with data,
leaving everything before pos and after pos + data.length unchanged.
This models writes through the DataView / Uint8Array.set; callers always
grow the buffer first so the write is in bounds. -/
def storeAt (buf : List Nat) (pos : Nat) (data : List Nat) : List Nat :=
  buf.take pos ++ data ++ buf.drop (pos + data.length)

/-- Source resizeEncodingBuffer: release the current encoding buffer and
allocate a fresh zero-filled one of the given size (the offset field is
not touched by the source function). -/
def resizeEncodingBuffer (newSize : Nat) (st : EncState) : EncState :=
  { buffer := List.replicate newSize 0, offset := st.offset }

/-- Source growIfNeeded: if the pending write does not fit, allocate
max(2 * current, offset + bytesToEncode) bytes and copy the old contents
to the front of the new buffer. -/
def growIfNeeded (bytesToEncode : Nat) (st : EncState) : EncState :=
  let need := st.offset + bytesToEncode
  if need > st.buffer.length then
    { buffer := storeAt (List.replicate (max (st.buffer.length * 2) need) 0) 0 st.buffer,
      offset := st.offset }
  else st

/-- Write a run of raw bytes at the current offset and advance the offset
past them (models buffer.set(data, offset); offset += data.length). -/
def putBytes (bs : List Nat) (st : EncState) : EncState :=
  { buffer := storeAt st.buffer st.offset bs, offset := st.offset + bs.length }

/-- DataView.setUint8 at the offset, then advance by 1.  The stored byte
is the argument wrapped modulo 256; setInt8 and Uint8Array element
assignment store exactly the same wrapped byte. -/
def putU8 (v : Int) (st : EncState) : EncState :=
  putBytes [(v.emod 256).toNat] st

/-- DataView.setInt8 stores the same wrapped byte as setUint8. -/
def putI8 (v : Int) (st : EncState) : EncState := putU8 v st

/-- DataView.setUint16 (big-endian), then advance by 2. -/
def putU16 (v : Int) (st : EncState) : EncState :=
  putBytes (u16BE (v.emod (2 ^ 16)).toNat) st

/-- DataView.setInt16 stores the same wrapped bytes as setUint16. -/
def putI16 (v : Int) (st : EncState) : EncState := putU16 v st

/-- DataView.setUint32 (big-endian), then advance by 4. -/
def putU32 (v : Int) (st : EncState) : EncState :=
  putBytes (u32BE (v.emod (2 ^ 32)).toNat) st

/-- DataView.setInt32 stores the same wrapped bytes as setUint32. -/
def putI32 (v : Int) (st : EncState) : EncState := putU32 v st

/-- Encoding errors carry the rangeError message together with the
module-level state left behind at the moment the exception was raised
(JavaScript exceptions unwind without touching the module variables). -/
abbrev EncErr := String × EncState

/-- Source rangeError helper: throws a RangeError with the library
prefix.  The state at throw time rides along in the error value. -/
def rangeError (msg : String) (st : EncState) : Except EncErr EncState :=
  .error ("[msgpack-es] cannot encode: " ++ msg, st)

/-- Source writeNil. -/
def writeNil (st : EncState) : EncState :=
  putU8 0xc0 (growIfNeeded 1 st)

/-- Source writeBool. -/
def writeBool (value : Bool) (st : EncState) : EncState :=
  putU8 (if value then 0xc3 else 0xc2) (growIfNeeded 1 st)

/-- Floor base-2 logarithm by structural recursion (the fuel argument is
the number itself, which always suffices), so that it evaluates by kernel
reduction. -/
def log2fuel : Nat → Nat → Nat
  | 0, _ => 0
  | fuel + 1, m => if m < 2 then 0 else 1 + log2fuel fuel (m / 2)

/-- Floor base-2 logarithm of a positive natural number. -/
def natLog2 (n : Nat) : Nat := log2fuel n n

/-- Round n / 2^shift to the nearest integer, ties to even (the IEEE-754
default rounding used by DataView.setFloat64); shift is at least 1 at
every use site. -/
def roundMantissaRNE (n shift : Nat) : Nat :=
  let q := n / 2 ^ shift
  let r := n % 2 ^ shift
  let half := 2 ^ (shift - 1)
  if r > half ∨ (r = half ∧ q % 2 = 1) then q + 1 else q

/-- IEEE-754 binary64 bit pattern of the double nearest to the integer v
(ties to even).  This models what DataView.setFloat64 stores when the
encoder falls back to the 64-bit float representation of an integer. -/
def float64BitsOfInt (v : Int) : Nat :=
  if v = 0 then 0
  else
    let sign : Nat := if v < 0 then 2 ^ 63 else 0
    let n := v.natAbs
    let e := natLog2 n
    if e ≤ 52 then sign + (e + 1023) * 2 ^ 52 + (n * 2 ^ (52 - e) - 2 ^ 52)
    else
      let m := roundMantissaRNE n (e - 52)
      if m = 2 ^ 53 then
        if e + 1 ≥ 1024 then sign + 2047 * 2 ^ 52
        else sign + (e + 1 + 1023) * 2 ^ 52
      else if e ≥ 1024 then sign + 2047 * 2 ^ 52
      else sign + (e + 1023) * 2 ^ 52 + (m - 2 ^ 52)

/-- Value of the double nearest to the integer v (ties to even); models
the JavaScript Number(bigint) conversion for integers beyond the safe
range. -/
def roundIntToDouble (v : Int) : Int :=
  if v = 0 then 0
  else
    let n := v.natAbs
    let e := natLog2 n
    let mag : Nat :=
      if e ≤ 52 then n else roundMantissaRNE n (e - 52) * 2 ^ (e - 52)
    if v < 0 then -(mag : Int) else (mag : Int)

/-- DataView.setFloat64 of an integer-valued number, then advance by 8. -/
def putF64ofInt (v : Int) (st : EncState) : EncState :=
  putBytes (u64BE (float64BitsOfInt v)) st

/-- Source unsafeWriteInt: encode a numeric value that is guaranteed to be
an integer in the safe-integer range, choosing the representation by the
branch ladder of the source (the name carries a prefix the verification
tooling reserves, hence the rename). -/
def uncheckedWriteInt (value : Int) (st : EncState) : EncState :=
  if value ≥ 0 then
    if value < 128 then putU8 value (growIfNeeded 1 st)
    else if value < 256 then putU8 value (putU8 0xcc (growIfNeeded 2 st))
    else if value < 65536 then putU16 value (putU8 0xcd (growIfNeeded 3 st))
    else if value < (U32_CAP : Int) then putU32 value (putU8 0xce (growIfNeeded 5 st))
    else
      -- uint64; the source divides by U32_CAP for the high word (the
      -- float quotient is truncated by ToUint32, i.e. floor for v >= 0)
      putU32 value (putU32 (value.fdiv (U32_CAP : Int)) (putU8 0xcf (growIfNeeded 9 st)))
  else if value ≥ -32 then putI8 value (growIfNeeded 1 st)
  else if value ≥ -(256 : Int) then putI8 value (putU8 0xd0 (growIfNeeded 2 st))
  else if value ≥ -(65536 : Int) then putI16 value (putU8 0xd1 (growIfNeeded 3 st))
  else if value ≥ -(U32_CAP : Int) then putI32 value (putU8 0xd2 (growIfNeeded 5 st))
  else putF64ofInt value (putU8 0xcb (growIfNeeded 9 st))

/-- Source writeNumber restricted to integer-valued numbers; non-integer
numbers are carried by their bit pattern and handled directly in
recursiveEncode below. -/
def writeNumber (value : Int) (st : EncState) : EncState :=
  if isSafeInteger value then uncheckedWriteInt value st
  else putF64ofInt value (putU8 0xcb (growIfNeeded 9 st))

/-- Source writeBigInt. -/
def writeBigInt (value : Int) (st : EncState) : Except EncErr EncState :=
  if isSafeInteger value then .ok (uncheckedWriteInt value st)
  else if value < 0 then
    if value ≤ -(2 ^ 63 : Int) then
      rangeError ("BigInt (" ++ toString value ++ ") is <= -2^63") st
    else
      .ok (putBytes (u64BE ((value.emod (2 ^ 64)).toNat)) (putU8 0xd3 (growIfNeeded 9 st)))
  else if value < (2 ^ 64 : Int) then
    .ok (putBytes (u64BE ((value.emod (2 ^ 64)).toNat)) (putU8 0xcf (growIfNeeded 9 st)))
  else rangeError ("BigInt (" ++ toString value ++ ") is >= 2^64") st

/-- Source writeBytes.  The first two guards test data.length; the third
guard of the source tests the ambient global named length (not
data.length), so it always holds and the final rangeError is
unreachable.  After the chosen header, the payload is copied verbatim. -/
def writeBytes (data : List Nat)
    (oneByteLenSeqIdentifier twoByteLenSeqIdentifier fourByteLenSeqIdentifier : Nat)
    (st : EncState) : Except EncErr EncState := do
  let st ←
    if data.length < 256 then
      pure (putU8 data.length (putU8 oneByteLenSeqIdentifier
        (growIfNeeded (2 + data.length) st)))
    else if data.length < 65536 then
      pure (putU16 data.length (putU8 twoByteLenSeqIdentifier
        (growIfNeeded (3 + data.length) st)))
    else if ambientWindowLength < U32_CAP then
      pure (putU32 data.length (putU8 fourByteLenSeqIdentifier
        (growIfNeeded (5 + data.length) st)))
    else rangeError ("binary/string length (" ++ toString data.length ++ ") >= 2^32") st
  pure (putBytes data st)

/-- UTF-8 bytes of a single Unicode scalar value. -/
def utf8EncodeCodePoint (c : Nat) : List Nat :=
  if c < 0x80 then [c]
  else if c < 0x800 then [0xc0 + c / 64, 0x80 + c % 64]
  else if c < 0x10000 then [0xe0 + c / 4096, 0x80 + c / 64 % 64, 0x80 + c % 64]
  else [0xf0 + c / 262144, 0x80 + c / 4096 % 64, 0x80 + c / 64 % 64, 0x80 + c % 64]

/-- UTF-8 encoding of a string, as the TextEncoder produces it (Lean
strings hold exactly the Unicode scalar values, so the encodings agree). -/
def utf8Encode (s : String) : List Nat :=
  s.data.foldr (fun c acc => utf8EncodeCodePoint c.toNat ++ acc) []

/-- Source writeString: short UTF-8 runs get a fixstr tag with the length
packed into the tag byte, anything else goes through writeBytes with the
str8 / str16 / str32 identifiers. -/
def writeString (value : String) (st : EncState) : Except EncErr EncState :=
  let utf8 := utf8Encode value
  if utf8.length < 32 then
    .ok (putBytes utf8 (putU8 ((0xa0 ||| utf8.length : Nat) : Int) (growIfNeeded (1 + utf8.length) st)))
  else writeBytes utf8 0xd9 0xda 0xdb st

/-- Source writeBinary (an ArrayBuffer argument is first viewed as a
Uint8Array, which the byte-list model already is). -/
def writeBinary (value : List Nat) (st : EncState) : Except EncErr EncState :=
  writeBytes value 0xc4 0xc5 0xc6 st

/-- Source writeArrayPrefix (renamed: the verification tooling reserves
the trailing word of the source name).  No length guard is needed since
ECMAScript array lengths always fit in a uint32. -/
def writeArrayHeader (length : Nat) (st : EncState) : EncState :=
  if length < 16 then putU8 ((0x90 ||| length : Nat) : Int) (growIfNeeded 1 st)
  else if length < 65536 then putU16 length (putU8 0xdc (growIfNeeded 3 st))
  else putU32 length (putU8 0xdd (growIfNeeded 5 st))

/-- Source writeMapPrefix (renamed like writeArrayHeader). -/
def writeMapHeader (keyCount : Nat) (st : EncState) : Except EncErr EncState :=
  if keyCount < 16 then .ok (putU8 ((0x80 ||| keyCount : Nat) : Int) (growIfNeeded 1 st))
  else if keyCount < 65536 then .ok (putU16 keyCount (putU8 0xde (growIfNeeded 3 st)))
  else if keyCount < U32_CAP then .ok (putU32 keyCount (putU8 0xdf (growIfNeeded 5 st)))
  else rangeError ("2^32 or more (" ++ toString keyCount ++ ") entries in map") st

/-- Source writeExt of the settled encoding module.  Its NOTE comment
states that the library deliberately uses only fixext 8 (for the common
Date payload), ext 16 and ext 32 — never fixext 1/2/4/16 or ext 8. -/
def writeExt (type : Int) (data : List Nat) (st : EncState) : Except EncErr EncState :=
  if data.length = 8 then
    .ok (putBytes data (putU8 type (putU8 0xd7 (growIfNeeded 10 st))))
  else if data.length < 65536 then
    .ok (putBytes data (putU8 type (putU16 data.length
      (putU8 0xc8 (growIfNeeded (4 + data.length) st)))))
  else if data.length < U32_CAP then
    .ok (putBytes data (putU8 type (putU32 data.length
      (putU8 0xc9 (growIfNeeded (6 + data.length) st)))))
  else rangeError ("ext length (" ++ toString data.length ++ ") >= 2^32") st

/-- Host-side values handled by the encoder, classified exactly as the
typeof switch of recursiveEncode distinguishes them.  Integer-valued
numbers are carried as Int, other numbers by their IEEE-754 binary64 bit
pattern.  Plain objects carry string keys (Object.keys); ES6 Maps carry
arbitrary keys.  Date is the only constructor registered in the
extEncoders registry of the settled library (extension id -1). -/
inductive JsValue where
  | undef
  | null
  | bool (b : Bool)
  | num (n : Int)
  | float (bits : Nat)
  | bigint (n : Int)
  | str (s : String)
  | bin (bytes : List Nat)
  | arr (elems : List JsValue)
  | map (entries : List (JsValue × JsValue))
  | obj (entries : List (String × JsValue))
  | date (ms : Int)
  | func
  | symbol

/-- JavaScript typeof x === "function" over the model. -/
def JsValue.typeofIsFunction : JsValue → Bool
  | .func => true
  | _ => false

/-- JavaScript typeof x === "undefined" over the model. -/
def JsValue.typeofIsUndefined : JsValue → Bool
  | .undef => true
  | _ => false

/-- Source Date extension encoder registered in index.ts (extension id
-1): derives floored seconds and a non-negative nanosecond remainder from
the millisecond timestamp and picks the 4-, 8- or 12-byte payload. -/
def encodeDate (ms : Int) : List Nat :=
  let s := ms.fdiv 1000
  let ns := ((ms - s * 1000) * 1000000).toNat
  if ms ≥ 0 ∧ ns = 0 ∧ s < (U32_CAP : Int) then
    -- 32-bit representation: seconds only
    u32BE s.toNat
  else if ms ≥ 0 ∧ s < (2 ^ 34 : Int) then
    -- 64-bit representation: 30 bits of nanoseconds, 34 bits of seconds.
    -- The source computes (ns << 2) + Math.floor(s / U32_CAP); the shift
    -- wraps at 32 bits as a signed value and setUint32 wraps back.
    u32BE (((toInt32 ((ns : Int) * 4) + s.fdiv (U32_CAP : Int)).emod (2 ^ 32)).toNat)
      ++ u32BE ((s.emod (U32_CAP : Int)).toNat)
  else
    -- 96-bit representation; seconds are split with Math.trunc and the
    -- JavaScript remainder operator (both truncate toward zero), each
    -- word wrapping as the DataView setters do
    u32BE ns
      ++ u32BE (((s.tdiv (U32_CAP : Int)).emod (2 ^ 32)).toNat)
      ++ u32BE (((s.tmod (U32_CAP : Int)).emod (2 ^ 32)).toNat)

/-- Read a big-endian 32-bit word from a payload (in bounds at all use
sites, which sit behind explicit length checks). -/
def getU32 (bs : List Nat) (i : Nat) : Nat :=
  bs.getD i 0 * 2 ^ 24 + bs.getD (i + 1) 0 * 2 ^ 16 + bs.getD (i + 2) 0 * 256 + bs.getD (i + 3) 0

/-- Read a big-endian signed 32-bit word from a payload. -/
def getI32 (bs : List Nat) (i : Nat) : Int :=
  let u := getU32 bs i
  if u ≥ 2 ^ 31 then (u : Int) - 2 ^ 32 else (u : Int)

/-- Source Date extension decoder registered in index.ts, returning the
millisecond timestamp of the constructed Date.  The 12-byte case of the
source computes ms and range-checks it but never returns a value: control
falls through into the default branch, so every 12-byte payload raises
the invalid-data-length RangeError. -/
def decodeDate (data : List Nat) : Except String Int :=
  if data.length = 4 then
    .ok ((getU32 data 0 : Int) * 1000)
  else if data.length = 8 then
    let first32Bits := getU32 data 0
    let nano := first32Bits / 4
    let sec := first32Bits % 4 * U32_CAP + getU32 data 4
    .ok ((sec : Int) * 1000 + (nano / 1000000 : Nat))
  else if data.length = 12 then
    let nano := getU32 data 0
    let sec := getI32 data 4 * (U32_CAP : Int) + (getU32 data 8 : Int)
    let ms := sec * 1000 + ((nano / 1000000 : Nat) : Int)
    if ¬ isSafeInteger ms then
      .error "msgpack: decodeDate (ext -1): timestamp exceeds safe JS integer range"
    else
      -- fallthrough into the default branch of the switch
      .error "msgpack: decodeDate (ext -1): invalid data length (12)"
  else
    .error ("msgpack: decodeDate (ext -1): invalid data length (" ++ toString data.length ++ ")")

/-- Filter applied by recursiveEncode to ES6 Map entries before writing:
function keys are dropped, as are entries whose value is a function or
undefined. -/
def validMapEntries (entries : List (JsValue × JsValue)) : List (JsValue × JsValue) :=
  entries.filter fun e =>
    ¬ e.1.typeofIsFunction ∧ ¬ e.2.typeofIsFunction ∧ ¬ e.2.typeofIsUndefined

/-- Filter applied by recursiveEncode to plain-object entries before
writing: entries whose value is undefined or a function are dropped. -/
def validObjEntries (entries : List (String × JsValue)) : List (String × JsValue) :=
  entries.filter fun e => ¬ e.2.typeofIsUndefined ∧ ¬ e.2.typeofIsFunction

theorem sizeOf_filter_le {α : Type} [SizeOf α] (p : α → Bool) (l : List α) :
    sizeOf (List.filter p l) ≤ sizeOf l := by
  induction l with
  | nil => simp [List.filter]
  | cons a t ih =>
    by_cases h : p a
    · simp only [List.filter_cons, h, if_true, List.cons.sizeOf_spec]
      omega
    · simp only [List.filter_cons, h, if_false, List.cons.sizeOf_spec, Bool.false_eq_true]
      omega

mutual
/-- Source recursiveEncode: the typeof switch of the settled encoding
module.  typeof values "function" and "symbol" have no case, so nothing
at all is written for them.  In the object branch, the extEncoders
registry holds exactly the default Date registration. -/
def recursiveEncode : JsValue → EncState → Except EncErr EncState
  | .undef, st => .ok (writeNil st)
  | .bool b, st => .ok (writeBool b st)
  | .num n, st => .ok (writeNumber n st)
  | .float bits, st =>
    -- a number that is not a safe integer: the 64-bit float representation
    .ok (putBytes (u64BE bits) (putU8 0xcb (growIfNeeded 9 st)))
  | .bigint n, st => writeBigInt n st
  | .str s, st => writeString s st
  | .null, st => .ok (writeNil st)
  | .date ms, st => writeExt (-1) (encodeDate ms) st
  | .bin bytes, st => writeBinary bytes st
  | .arr elems, st => do
    encodeItems elems (writeArrayHeader elems.length st)
  | .map entries, st => do
    let validKeys := validMapEntries entries
    let st ← writeMapHeader validKeys.length st
    encodePairs validKeys st
  | .obj entries, st => do
    let validKeys := validObjEntries entries
    let st ← writeMapHeader validKeys.length st
    encodeObjPairs validKeys st
  | .func, st => .ok st
  | .symbol, st => .ok st
  termination_by v _ => sizeOf v
  decreasing_by
    all_goals simp_wf
    all_goals try omega
    · have h := sizeOf_filter_le
        (fun e => decide (¬ e.1.typeofIsFunction ∧ ¬ e.2.typeofIsFunction ∧
          ¬ e.2.typeofIsUndefined)) entries
      simp only [validMapEntries] at *
      omega
    · have h := sizeOf_filter_le
        (fun e => decide (¬ e.2.typeofIsUndefined ∧ ¬ e.2.typeofIsFunction)) entries
      simp only [validObjEntries] at *
      omega

/-- Encode array elements in order (data.forEach(recursiveEncode)). -/
def encodeItems : List JsValue → EncState → Except EncErr EncState
  | [], st => .ok st
  | e :: rest, st => do
    let st ← recursiveEncode e st
    encodeItems rest st
  termination_by l _ => sizeOf l
  decreasing_by
    all_goals simp_wf
    all_goals try omega

/-- Encode surviving ES6 Map entries in order, key then value. -/
def encodePairs : List (JsValue × JsValue) → EncState → Except EncErr EncState
  | [], st => .ok st
  | (k, v) :: rest, st => do
    let st ← recursiveEncode k st
    let st ← recursiveEncode v st
    encodePairs rest st
  termination_by l _ => sizeOf l
  decreasing_by
    all_goals simp_wf
    all_goals try omega

/-- Encode surviving plain-object entries in order, key then value (the
key is a string property name). -/
def encodeObjPairs : List (String × JsValue) → EncState → Except EncErr EncState
  | [], st => .ok st
  | (k, v) :: rest, st => do
    let st ← writeString k st
    let st ← recursiveEncode v st
    encodeObjPairs rest st
  termination_by l _ => sizeOf l
  decreasing_by
    all_goals simp_wf
    all_goals try omega
end

/-- Buffer state at module load: new Uint8Array(128), offset 0. -/
def ENC_INIT : EncState := { buffer := List.replicate 128 0, offset := 0 }

/-- Source encodeView: optionally reserve a larger buffer, reset the
offset to 0, encode, and hand back the written range of the live buffer
together with the module state left behind. -/
def encodeView (value : JsValue) (reserve : Nat) (st : EncState) :
    Except EncErr (List Nat × EncState) :=
  let st := if reserve > st.buffer.length then resizeEncodingBuffer reserve st else st
  let st := { st with offset := 0 }
  match recursiveEncode value st with
  | .ok st2 => .ok (st2.buffer.take st2.offset, st2)
  | .error e => .error e

/-- Source encode: snapshot the module state, run encodeView (the .slice()
copy is the identity on the byte-list model), and restore the snapshot
after a normal return.  The restore statements are not in a finally
block, so when encodeView raises, the exception propagates with whatever
module state encodeView left behind. -/
def encode (value : JsValue) (reserve : Nat) (st : EncState) :
    Except EncErr (List Nat × EncState) :=
  let prev := st
  match encodeView value reserve st with
  | .ok (result, _) => .ok (result, prev)
  | .error e => .error e

/-- Bytes produced by a fresh top-level encode, discarding the state. -/
def encodeBytes (value : JsValue) : Except String (List Nat) :=
  match encode value 0 ENC_INIT with
  | .ok (bytes, _) => .ok bytes
  | .error e => .error e.1

/-- Source typeLookup: the 256-entry tag dispatch table, built once at
module load.  Each run below is one initialization loop of the source,
in order: bytes 0x00-0x7f get Type.PosFixInt (0), 0x80-0x8f
Type.FixMap (1), 0x90-0x9f Type.FixArray (2), 0xa0-0xbf
Type.FixString (3), 0xc0-0xdf the enum value i - 188 (Type.Nil = 4
through Type.Map32 = 35 in wire order), and 0xe0-0xff
Type.NegFixInt (36). -/
def typeLookup : List Nat :=
  List.replicate 0x80 0
    ++ List.replicate 0x10 1
    ++ List.replicate 0x10 2
    ++ List.replicate 0x20 3
    ++ (List.range 0x20).map (fun i => 0xc0 + i - 188)
    ++ List.replicate 0x20 36

/-- Function form of the dispatch table, used to evaluate lookups
quickly; proved pointwise equal to typeLookup below (bytes are always
below 256, and the out-of-range default is 0 either way). -/
def typeLookupFn (b : Nat) : Nat :=
  if b < 0x80 then 0
  else if b < 0x90 then 1
  else if b < 0xa0 then 2
  else if b < 0xc0 then 3
  else if b < 0xe0 then b - 188
  else if b < 0x100 then 36
  else 0

/-- Indexing the dispatch table (typeLookup[seqByte]; the byte read from
a Uint8Array is always in range). -/
def lookupType (b : Nat) : Nat := typeLookup.getD b 0

theorem and_fifteen (b : Nat) : b &&& 0xf = b % 16 := Nat.and_pow_two_sub_one_eq_mod b 4

theorem and_thirtyone (b : Nat) : b &&& 0x1f = b % 32 := Nat.and_pow_two_sub_one_eq_mod b 5

set_option maxRecDepth 4096 in
theorem lookupType_eq (b : Nat) : lookupType b = typeLookupFn b := by
  show typeLookup.getD b 0 = typeLookupFn b
  by_cases h : b < 256
  · revert h
    revert b
    decide
  · have hlen : typeLookup.length = 256 := by decide
    have h256 : 256 ≤ b := Nat.le_of_not_lt h
    rw [List.getD_eq_default]
    · simp only [typeLookupFn]
      rw [if_neg (by omega), if_neg (by omega), if_neg (by omega), if_neg (by omega),
        if_neg (by omega), if_neg (by omega)]
    · omega

/-- Values produced by the decoder.  Numbers decoded from integer tags
are carried as Int; numbers decoded from float tags are carried by their
read bit patterns.  The obj constructor is the plain-JavaScript-object
result of the speculative map pass (string property keys); the map
constructor is the ES6 Map result.  unknownExt is the UnknownExt wrapper
produced by the default unknown-extension handler, and date is the result
of the registered Date extension decoder. -/
inductive DVal where
  | undef
  | null
  | bool (b : Bool)
  | num (n : Int)
  | float (bits : Nat)
  | float32 (bits : Nat)
  | bigint (n : Int)
  | str (s : String)
  | bin (bytes : List Nat)
  | arr (elems : List DVal)
  | obj (entries : List (String × DVal))
  | map (entries : List (DVal × DVal))
  | unknownExt (type : Int) (data : List Nat)
  | date (ms : Int)

/-- JavaScript typeof x === "object" over decoded values: true for null
and for every reference value (arrays, plain objects, ES6 Maps,
Uint8Arrays, UnknownExt wrappers, Dates). -/
def DVal.typeofIsObject : DVal → Bool
  | .null => true
  | .arr _ => true
  | .obj _ => true
  | .map _ => true
  | .bin _ => true
  | .unknownExt _ _ => true
  | .date _ => true
  | _ => false

/-- Decode options of the settled decoding module.  The bad-UTF-8 handler
and the unknown-extension handler are embedded with their default
behaviors (return the raw bytes, wrap in UnknownExt); nilValue and
forceES6Map are carried explicitly. -/
structure DecodeOpts where
  nilValue : DVal
  forceES6Map : Bool

/-- Default options: nilValue is undefined and forceES6Map is false in
the sealed DECODE_OPTS object of the source. -/
def DECODE_OPTS : DecodeOpts := { nilValue := .undef, forceES6Map := false }

/-- Read one byte of the buffer; reading outside the DataView bounds
raises, as the JavaScript getters do. -/
def getByte (buf : List Nat) (i : Nat) : Except String Nat :=
  match buf.get? i with
  | some b => .ok b
  | none => .error "msgpack-model: read outside the bounds of the DataView"

/-- Source takeUint8. -/
def takeUint8 (buf : List Nat) (off : Nat) : Except String (Nat × Nat) := do
  let b ← getByte buf off
  .ok (b, off + 1)

/-- Source takeUint16 (big-endian). -/
def takeUint16 (buf : List Nat) (off : Nat) : Except String (Nat × Nat) := do
  let b0 ← getByte buf off
  let b1 ← getByte buf (off + 1)
  .ok (b0 * 256 + b1, off + 2)

/-- Source takeUint32 (big-endian). -/
def takeUint32 (buf : List Nat) (off : Nat) : Except String (Nat × Nat) := do
  let b0 ← getByte buf off
  let b1 ← getByte buf (off + 1)
  let b2 ← getByte buf (off + 2)
  let b3 ← getByte buf (off + 3)
  .ok (b0 * 2 ^ 24 + b1 * 2 ^ 16 + b2 * 256 + b3, off + 4)

/-- Source takeInt8. -/
def takeInt8 (buf : List Nat) (off : Nat) : Except String (Int × Nat) := do
  let b ← getByte buf off
  .ok (if b ≥ 128 then (b : Int) - 256 else (b : Int), off + 1)

/-- Source takeInt16. -/
def takeInt16 (buf : List Nat) (off : Nat) : Except String (Int × Nat) := do
  let (u, off2) ← takeUint16 buf off
  .ok (if u ≥ 2 ^ 15 then (u : Int) - 2 ^ 16 else (u : Int), off2)

/-- Source takeInt32. -/
def takeInt32 (buf : List Nat) (off : Nat) : Except String (Int × Nat) := do
  let (u, off2) ← takeUint32 buf off
  .ok (if u ≥ 2 ^ 31 then (u : Int) - 2 ^ 32 else (u : Int), off2)

/-- Source takeUint64: peek the high 32 bits; when they reach 2^21 the
value would not be a safe integer, so it is read as a BigInt, otherwise
as a plain number. -/
def takeUint64 (buf : List Nat) (off : Nat) : Except String (DVal × Nat) := do
  let (hi32, _) ← takeUint32 buf off
  if hi32 ≥ 2 ^ 21 then
    let (lo, _) ← takeUint32 buf (off + 4)
    .ok (.bigint (hi32 * U32_CAP + lo), off + 8)
  else
    let (lo, _) ← takeUint32 buf (off + 4)
    .ok (.num (hi32 * U32_CAP + lo), off + 8)

/-- Source takeInt64: BigInt is available in the modelled runtime; values
no greater than Number.MAX_SAFE_INTEGER come back as plain numbers via
Number(value) (which rounds values below the negative safe range to the
nearest double), larger values stay BigInts. -/
def takeInt64 (buf : List Nat) (off : Nat) : Except String (DVal × Nat) := do
  let (hi, _) ← takeUint32 buf off
  let (lo, _) ← takeUint32 buf (off + 4)
  let u := hi * U32_CAP + lo
  let v : Int := if u ≥ 2 ^ 63 then (u : Int) - 2 ^ 64 else (u : Int)
  if v ≤ (2 ^ 53 - 1 : Int) then .ok (.num (roundIntToDouble v), off + 8)
  else .ok (.bigint v, off + 8)

/-- Source takeFloat32: the decoded number is carried by its bit
pattern. -/
def takeFloat32 (buf : List Nat) (off : Nat) : Except String (DVal × Nat) := do
  let (bits, off2) ← takeUint32 buf off
  .ok (.float32 bits, off2)

/-- Source takeFloat64: the decoded number is carried by its bit
pattern. -/
def takeFloat64 (buf : List Nat) (off : Nat) : Except String (DVal × Nat) := do
  let (hi, _) ← takeUint32 buf off
  let (lo, off2) ← takeUint32 buf (off + 4)
  .ok (.float (hi * U32_CAP + lo), off2)

/-- Source takeBinary: buffer.slice clamps to the buffer end and never
raises; the offset still advances by the full requested length. -/
def takeBinary (buf : List Nat) (length off : Nat) : List Nat × Nat :=
  ((buf.drop off).take length, off + length)

/-- Decode a UTF-8 byte list into Unicode scalar values, rejecting exactly
what a fatal TextDecoder rejects: truncated sequences, bad continuation
bytes, overlong forms, surrogate code points, and values beyond
0x10FFFF. -/
def utf8DecodeChars : List Nat → Option (List Char)
  | [] => some []
  | b :: rest =>
    if b < 0x80 then
      (utf8DecodeChars rest).map (fun cs => Char.ofNat b :: cs)
    else if 0xc2 ≤ b ∧ b ≤ 0xdf then
      match rest with
      | b2 :: rest2 =>
        if 0x80 ≤ b2 ∧ b2 ≤ 0xbf then
          (utf8DecodeChars rest2).map
            (fun cs => Char.ofNat ((b - 0xc0) * 64 + (b2 - 0x80)) :: cs)
        else none
      | _ => none
    else if 0xe0 ≤ b ∧ b ≤ 0xef then
      match rest with
      | b2 :: b3 :: rest3 =>
        let lo2 := if b = 0xe0 then 0xa0 else 0x80
        let hi2 := if b = 0xed then 0x9f else 0xbf
        if (lo2 ≤ b2 ∧ b2 ≤ hi2) ∧ (0x80 ≤ b3 ∧ b3 ≤ 0xbf) then
          (utf8DecodeChars rest3).map
            (fun cs => Char.ofNat ((b - 0xe0) * 4096 + (b2 - 0x80) * 64 + (b3 - 0x80)) :: cs)
        else none
      | _ => none
    else if 0xf0 ≤ b ∧ b ≤ 0xf4 then
      match rest with
      | b2 :: b3 :: b4 :: rest4 =>
        let lo2 := if b = 0xf0 then 0x90 else 0x80
        let hi2 := if b = 0xf4 then 0x8f else 0xbf
        if (lo2 ≤ b2 ∧ b2 ≤ hi2) ∧ (0x80 ≤ b3 ∧ b3 ≤ 0xbf) ∧ (0x80 ≤ b4 ∧ b4 ≤ 0xbf) then
          (utf8DecodeChars rest4).map
            (fun cs => Char.ofNat ((b - 0xf0) * 262144 + (b2 - 0x80) * 4096
              + (b3 - 0x80) * 64 + (b4 - 0x80)) :: cs)
        else none
      | _ => none
    else none

/-- Decode UTF-8 bytes to a string, or fail like a fatal TextDecoder. -/
def utf8DecodeString (bs : List Nat) : Option String :=
  (utf8DecodeChars bs).map fun cs => String.mk cs

/-- Source takeString: slice the bytes, decode them as UTF-8; on invalid
UTF-8 the default badUTF8Handler returns a copy of the raw bytes. -/
def takeStringVal (buf : List Nat) (length off : Nat) : DVal × Nat :=
  let (utf8, off2) := takeBinary buf length off
  match utf8DecodeString utf8 with
  | some s => (.str s, off2)
  | none => (.bin utf8, off2)

/-- Source takeExt: read the signed extension id, slice the payload, and
dispatch through the extDecoders registry, which holds exactly the
default Date registration (id -1); unknown ids go to the default
unknown-extension handler, which wraps them. -/
def takeExt (buf : List Nat) (dataLength off : Nat) : Except String (DVal × Nat) := do
  let (type, off2) ← takeInt8 buf off
  let (data, off3) := takeBinary buf dataLength off2
  if type = -1 then
    match decodeDate data with
    | .ok ms => .ok (.date ms, off3)
    | .error e => .error e
  else .ok (.unknownExt type data, off3)

/-- True when the binary64 bit pattern denotes a NaN. -/
def isNaNBits (bits : Nat) : Bool := bits / 2 ^ 52 % 2 ^ 11 = 2047 ∧ bits % 2 ^ 52 ≠ 0

/-- True when the binary64 bit pattern denotes positive or negative
zero. -/
def isZeroBits (bits : Nat) : Bool := bits = 0 ∨ bits = 2 ^ 63

/-- Exact widening of a binary32 bit pattern to the binary64 bit pattern
of the same number (the value a JavaScript getFloat32 read denotes). -/
def float32ToBits64 (b : Nat) : Nat :=
  let sign := b / 2 ^ 31
  let e8 := b / 2 ^ 23 % 2 ^ 8
  let m23 := b % 2 ^ 23
  if e8 = 255 then sign * 2 ^ 63 + 2047 * 2 ^ 52 + m23 * 2 ^ 29
  else if e8 = 0 then
    if m23 = 0 then sign * 2 ^ 63
    else
      let l := natLog2 m23
      sign * 2 ^ 63 + (l + 874) * 2 ^ 52 + (m23 - 2 ^ l) * 2 ^ (52 - l)
  else sign * 2 ^ 63 + (e8 - 127 + 1023) * 2 ^ 52 + m23 * 2 ^ 29

/-- Binary64 bit pattern of a decoded value when its JavaScript typeof is
"number" (every .num produced by the decoder is exactly representable). -/
def numBits : DVal → Option Nat
  | .num n => some (float64BitsOfInt n)
  | .float b => some b
  | .float32 b => some (float32ToBits64 b)
  | _ => none

/-- SameValueZero on two numbers given by bit patterns: all NaNs are
equal, positive and negative zero are equal, anything else compares by
value (here: by pattern). -/
def svzNum (a b : Nat) : Bool :=
  (isNaNBits a ∧ isNaNBits b) ∨ (isZeroBits a ∧ isZeroBits b) ∨ a = b

/-- SameValueZero over decoded values, as Map.set uses to find an
existing key.  Reference values compare by identity; every object the
decoder produces is freshly allocated, so two decoded reference values
are never the same key. -/
def sameValueZero (a b : DVal) : Bool :=
  match numBits a, numBits b with
  | some x, some y => svzNum x y
  | _, _ =>
    match a, b with
    | .undef, .undef => true
    | .null, .null => true
    | .bool x, .bool y => x == y
    | .str x, .str y => x == y
    | .bigint x, .bigint y => x == y
    | _, _ => false

/-- ES6 Map.set: replace the value of an existing SameValueZero-equal key
in place (keeping the original key and position), otherwise append. -/
def mapSet (entries : List (DVal × DVal)) (k v : DVal) : List (DVal × DVal) :=
  if entries.any (fun e => sameValueZero e.1 k) then
    entries.map (fun e => if sameValueZero e.1 k then (e.1, v) else e)
  else entries ++ [(k, v)]

/-- JavaScript property assignment obj[key] = value with a string key:
replace in place when the key exists, otherwise append.  (JavaScript
enumeration reorders integer-like keys; the model keeps entries in
insertion order, which no claim depends on.) -/
def objInsert (entries : List (String × DVal)) (key : String) (v : DVal) :
    List (String × DVal) :=
  if entries.any (fun e => e.1 == key) then
    entries.map (fun e => if e.1 == key then (e.1, v) else e)
  else entries ++ [(key, v)]

/-- JavaScript ToString of a decoded value used as a property key.  The
shortest-round-trip decimal formatting of non-integer numbers is
abstracted by a tagged rendering of the bit pattern; no claim depends on
those strings.  Object-typed keys never reach this coercion: the
speculative map pass rewinds before assigning them. -/
def toPropertyKey : DVal → String
  | .undef => "undefined"
  | .null => "null"
  | .bool b => if b then "true" else "false"
  | .num n => toString n
  | .float bits => "float64bits:" ++ toString bits
  | .float32 bits => "float32bits:" ++ toString bits
  | .bigint n => toString n
  | .str s => s
  | _ => "[object]"

mutual
/-- Source takeGeneric: read the leading byte, look its category up in
typeLookup, and execute that category in the wire order of the const
enum Type (the numeric literals below are the enum values, PosFixInt = 0
through NegFixInt = 36).  Fuel counts container nesting levels; no run
over a finite buffer needs more fuel than the buffer has bytes. -/
def takeGeneric (buf : List Nat) (opts : DecodeOpts) : Nat → Nat → Except String (DVal × Nat)
  | 0, _ => .error "msgpack-model: recursion fuel exhausted"
  | fuel + 1, off =>
    match getByte buf off with
    | .error e => .error e
    | .ok seqByte =>
      let off := off + 1
      match lookupType seqByte with
      | 0 => .ok (.num seqByte, off)                                         -- PosFixInt
      | 1 => takeMap buf opts fuel (seqByte &&& 0xf) opts.forceES6Map off    -- FixMap
      | 2 => takeArrayLoop buf opts fuel (seqByte &&& 0xf) [] off            -- FixArray
      | 3 => .ok (takeStringVal buf (seqByte &&& 0x1f) off)                  -- FixString
      | 4 => .ok (opts.nilValue, off)                                        -- Nil
      | 5 => .ok (.undef, off)                                               -- NeverUsed
      | 6 => .ok (.bool false, off)                                          -- False
      | 7 => .ok (.bool true, off)                                           -- True
      | 8 => do                                                              -- Bin8
        let (n, off2) ← takeUint8 buf off
        let (data, off3) := takeBinary buf n off2
        .ok (.bin data, off3)
      | 9 => do                                                              -- Bin16
        let (n, off2) ← takeUint16 buf off
        let (data, off3) := takeBinary buf n off2
        .ok (.bin data, off3)
      | 10 => do                                                             -- Bin32
        let (n, off2) ← takeUint32 buf off
        let (data, off3) := takeBinary buf n off2
        .ok (.bin data, off3)
      | 11 => do                                                             -- Ext8
        let (n, off2) ← takeUint8 buf off
        takeExt buf n off2
      | 12 => do                                                             -- Ext16
        let (n, off2) ← takeUint16 buf off
        takeExt buf n off2
      | 13 => do                                                             -- Ext32
        let (n, off2) ← takeUint32 buf off
        takeExt buf n off2
      | 14 => takeFloat32 buf off                                            -- Float32
      | 15 => takeFloat64 buf off                                            -- Float64
      | 16 => do                                                             -- Uint8
        let (v, off2) ← takeUint8 buf off
        .ok (.num v, off2)
      | 17 => do                                                             -- Uint16
        let (v, off2) ← takeUint16 buf off
        .ok (.num v, off2)
      | 18 => do                                                             -- Uint32
        let (v, off2) ← takeUint32 buf off
        .ok (.num v, off2)
      | 19 => takeUint64 buf off                                             -- Uint64
      | 20 => do                                                             -- Int8
        let (v, off2) ← takeInt8 buf off
        .ok (.num v, off2)
      | 21 => do                                                             -- Int16
        let (v, off2) ← takeInt16 buf off
        .ok (.num v, off2)
      | 22 => do                                                             -- Int32
        let (v, off2) ← takeInt32 buf off
        .ok (.num v, off2)
      | 23 => takeInt64 buf off                                              -- Int64
      | 24 => takeExt buf 1 off                                              -- FixExt1
      | 25 => takeExt buf 2 off                                              -- FixExt2
      | 26 => takeExt buf 4 off                                              -- FixExt4
      | 27 => takeExt buf 8 off                                              -- FixExt8
      | 28 => takeExt buf 16 off                                             -- FixExt16
      | 29 => do                                                             -- String8
        let (n, off2) ← takeUint8 buf off
        .ok (takeStringVal buf n off2)
      | 30 => do                                                             -- String16
        let (n, off2) ← takeUint16 buf off
        .ok (takeStringVal buf n off2)
      | 31 => do                                                             -- String32
        let (n, off2) ← takeUint32 buf off
        .ok (takeStringVal buf n off2)
      | 32 => do                                                             -- Array16
        let (n, off2) ← takeUint16 buf off
        takeArrayLoop buf opts fuel n [] off2
      | 33 => do                                                             -- Array32
        let (n, off2) ← takeUint32 buf off
        takeArrayLoop buf opts fuel n [] off2
      | 34 => do                                                             -- Map16
        let (n, off2) ← takeUint16 buf off
        takeMap buf opts fuel n opts.forceES6Map off2
      | 35 => do                                                             -- Map32
        let (n, off2) ← takeUint32 buf off
        takeMap buf opts fuel n opts.forceES6Map off2
      | 36 => .ok (.num ((seqByte : Int) - 256), off)                        -- NegFixInt
      | _ => .error "msgpack-model: dispatch switch fell through"
  termination_by fuel off => (fuel, 0, 0)

/-- Source takeArray loop: decode the declared number of elements in
order. -/
def takeArrayLoop (buf : List Nat) (opts : DecodeOpts) :
    Nat → Nat → List DVal → Nat → Except String (DVal × Nat)
  | _, 0, acc, off => .ok (.arr acc, off)
  | fuel, n + 1, acc, off =>
    match takeGeneric buf opts fuel off with
    | .ok (v, off2) => takeArrayLoop buf opts fuel n (acc ++ [v]) off2
    | .error e => .error e
  termination_by fuel n acc off => (fuel, 1, n)

/-- Source takeMap, forceMap branch: decode key-value pairs into an ES6
Map via Map.set. -/
def takeMapES6Loop (buf : List Nat) (opts : DecodeOpts) :
    Nat → Nat → List (DVal × DVal) → Nat → Except String (List (DVal × DVal) × Nat)
  | _, 0, acc, off => .ok (acc, off)
  | fuel, n + 1, acc, off =>
    match takeGeneric buf opts fuel off with
    | .error e => .error e
    | .ok (k, off2) =>
      match takeGeneric buf opts fuel off2 with
      | .error e => .error e
      | .ok (v, off3) => takeMapES6Loop buf opts fuel n (mapSet acc k v) off3
  termination_by fuel n acc off => (fuel, 1, n)

/-- Source takeMap, speculative branch: build a plain object keyed by the
coerced keys; when a decoded key has typeof "object", abandon the partial
object, reset the offset to mapStart and redo the whole map as an ES6
Map. -/
def takeMapSpecLoop (buf : List Nat) (opts : DecodeOpts) :
    Nat → Nat → Nat → Nat → List (String × DVal) → Nat → Except String (DVal × Nat)
  | _, _, _, 0, acc, off => .ok (.obj acc, off)
  | fuel, mapStart, keyCount, rem + 1, acc, off =>
    match takeGeneric buf opts fuel off with
    | .error e => .error e
    | .ok (key, off2) =>
      if key.typeofIsObject then
        match takeMapES6Loop buf opts fuel keyCount [] mapStart with
        | .ok (entries, off3) => .ok (.map entries, off3)
        | .error e => .error e
      else
        match takeGeneric buf opts fuel off2 with
        | .error e => .error e
        | .ok (value, off3) =>
          takeMapSpecLoop buf opts fuel mapStart keyCount rem
            (objInsert acc (toPropertyKey key) value) off3
  termination_by fuel mapStart keyCount rem acc off => (fuel, 2, rem)

/-- Source takeMap: entry point selecting the forced-ES6 or the
speculative strategy; mapStart is the offset right after the key count
was consumed. -/
def takeMap (buf : List Nat) (opts : DecodeOpts) :
    Nat → Nat → Bool → Nat → Except String (DVal × Nat)
  | fuel, keyCount, forceMap, off =>
    if forceMap then
      match takeMapES6Loop buf opts fuel keyCount [] off with
      | .ok (entries, off2) => .ok (.map entries, off2)
      | .error e => .error e
    else takeMapSpecLoop buf opts fuel off keyCount keyCount [] off
  termination_by fuel keyCount forceMap off => (fuel, 3, 0)
end

/-- Single-shot top-level decode with the default options and ample fuel
(one fuel unit per input byte plus one always suffices, since every
nesting level consumes at least its tag byte). -/
def decodeTop (data : List Nat) : Except String DVal :=
  match takeGeneric data DECODE_OPTS (data.length + 1) 0 with
  | .ok (v, _) => .ok v
  | .error e => .error e

/-- Follows the specification's words (map container decoding): the raw
sequence of key-value pairs obtained by decoding 2 x keyCount values in
order from the given offset, with no container strategy applied.  This is
the reference description against which takeMap's speculative strategy is
compared. -/
def rawMapEntries (buf : List Nat) (opts : DecodeOpts) (fuel : Nat) :
    Nat → Nat → Except String (List (DVal × DVal) × Nat)
  | 0, off => .ok ([], off)
  | n + 1, off =>
    match takeGeneric buf opts fuel off with
    | .error e => .error e
    | .ok (k, off2) =>
      match takeGeneric buf opts fuel off2 with
      | .error e => .error e
      | .ok (v, off3) =>
        match rawMapEntries buf opts fuel n off3 with
        | .ok (kvs, off4) => .ok ((k, v) :: kvs, off4)
        | .error e => .error e

/-- Result of inserting a pair run into an ES6 Map via Map.set. -/
def es6OfPairs (acc : List (DVal × DVal)) (kvs : List (DVal × DVal)) :
    List (DVal × DVal) :=
  kvs.foldl (fun m p => mapSet m p.1 p.2) acc

/-- Result of assigning a pair run into a plain object with coerced
property keys. -/
def objOfPairs (acc : List (String × DVal)) (kvs : List (DVal × DVal)) :
    List (String × DVal) :=
  kvs.foldl (fun m p => objInsert m (toPropertyKey p.1) p.2) acc

/-- Primitive key in the sense of the specification: boolean, number or
text. -/
def isPrimitiveBNT : DVal → Bool
  | .bool _ => true
  | .num _ => true
  | .float _ => true
  | .float32 _ => true
  | .str _ => true
  | _ => false

/-- Composite decoded value in the sense of the specification: an array,
a mapping, an extension value, or any other non-primitive. -/
def isCompositeVal : DVal → Bool
  | .arr _ => true
  | .obj _ => true
  | .map _ => true
  | .bin _ => true
  | .unknownExt _ _ => true
  | .date _ => true
  | _ => false

theorem isPrimitiveBNT_not_object {v : DVal} (h : isPrimitiveBNT v = true) :
    v.typeofIsObject = false := by
  cases v <;> simp_all [isPrimitiveBNT, DVal.typeofIsObject]

theorem isCompositeVal_object {v : DVal} (h : isCompositeVal v = true) :
    v.typeofIsObject = true := by
  cases v <;> simp_all [isCompositeVal, DVal.typeofIsObject]

theorem takeMapES6Loop_eq_raw (buf : List Nat) (opts : DecodeOpts) (fuel : Nat) :
    ∀ n off kvs off2 acc,
      rawMapEntries buf opts fuel n off = .ok (kvs, off2) →
      takeMapES6Loop buf opts fuel n acc off = .ok (es6OfPairs acc kvs, off2) := by
  intro n
  induction n with
  | zero =>
    intro off kvs off2 acc h
    simp only [rawMapEntries, Except.ok.injEq, Prod.mk.injEq] at h
    obtain ⟨rfl, rfl⟩ := h
    simp [takeMapES6Loop, es6OfPairs]
  | succ n ih =>
    intro off kvs off2 acc h
    simp only [rawMapEntries] at h
    cases hk : takeGeneric buf opts fuel off with
    | error e => rw [hk] at h; exact absurd h (by simp)
    | ok kp =>
      obtain ⟨k, offk⟩ := kp
      rw [hk] at h
      dsimp only at h
      cases hv : takeGeneric buf opts fuel offk with
      | error e => rw [hv] at h; exact absurd h (by simp)
      | ok vp =>
        obtain ⟨v, offv⟩ := vp
        rw [hv] at h
        dsimp only at h
        cases hr : rawMapEntries buf opts fuel n offv with
        | error e => rw [hr] at h; exact absurd h (by simp)
        | ok rp =>
          obtain ⟨kvs0, off4⟩ := rp
          rw [hr] at h
          simp only [Except.ok.injEq, Prod.mk.injEq] at h
          obtain ⟨rfl, rfl⟩ := h
          simp only [takeMapES6Loop, hk, hv]
          exact ih offv kvs0 _ (mapSet acc k v) hr

theorem takeMapSpecLoop_raw (buf : List Nat) (opts : DecodeOpts)
    (fuel mapStart keyCount : Nat) :
    ∀ rem off kvs off2 acc,
      rawMapEntries buf opts fuel rem off = .ok (kvs, off2) →
      ((∀ p ∈ kvs, (p : DVal × DVal).1.typeofIsObject = false) →
        takeMapSpecLoop buf opts fuel mapStart keyCount rem acc off =
          .ok (.obj (objOfPairs acc kvs), off2))
      ∧ ((∃ p ∈ kvs, (p : DVal × DVal).1.typeofIsObject = true) →
        takeMapSpecLoop buf opts fuel mapStart keyCount rem acc off =
          match takeMapES6Loop buf opts fuel keyCount [] mapStart with
          | .ok (entries, off3) => .ok (.map entries, off3)
          | .error e => .error e) := by
  intro rem
  induction rem with
  | zero =>
    intro off kvs off2 acc h
    simp only [rawMapEntries, Except.ok.injEq, Prod.mk.injEq] at h
    obtain ⟨rfl, rfl⟩ := h
    constructor
    · intro _
      simp [takeMapSpecLoop, objOfPairs]
    · intro hex
      simp at hex
  | succ rem ih =>
    intro off kvs off2 acc h
    simp only [rawMapEntries] at h
    cases hk : takeGeneric buf opts fuel off with
    | error e => rw [hk] at h; exact absurd h (by simp)
    | ok kp =>
      obtain ⟨k, offk⟩ := kp
      rw [hk] at h
      dsimp only at h
      cases hv : takeGeneric buf opts fuel offk with
      | error e => rw [hv] at h; exact absurd h (by simp)
      | ok vp =>
        obtain ⟨v, offv⟩ := vp
        rw [hv] at h
        dsimp only at h
        cases hr : rawMapEntries buf opts fuel rem offv with
        | error e => rw [hr] at h; exact absurd h (by simp)
        | ok rp =>
          obtain ⟨kvs0, off4⟩ := rp
          rw [hr] at h
          simp only [Except.ok.injEq, Prod.mk.injEq] at h
          obtain ⟨rfl, rfl⟩ := h
          by_cases hobj : k.typeofIsObject = true
          · constructor
            · intro hall
              exact absurd hobj (by simp [hall (k, v) (by simp)])
            · intro _
              simp only [takeMapSpecLoop, hk, hobj, if_true]
          · have hobjf : k.typeofIsObject = false := by
              cases hkk : k.typeofIsObject
              · rfl
              · exact absurd hkk hobj
            have ihp := ih offv kvs0 _ (objInsert acc (toPropertyKey k) v) hr
            constructor
            · intro hall
              simp only [takeMapSpecLoop, hk, hobjf, hv]
              simp only [Bool.false_eq_true, if_false]
              exact ihp.1 (fun p hp => hall p (by simp [hp]))
            · intro hex
              simp only [takeMapSpecLoop, hk, hobjf, hv]
              simp only [Bool.false_eq_true, if_false]
              refine ihp.2 ?_
              obtain ⟨p, hp, hpt⟩ := hex
              rcases List.mem_cons.mp hp with rfl | hp0
              · exact absurd hpt (by simp [hobjf])
              · exact ⟨p, hp0, hpt⟩

theorem storeAt_length {buf data : List Nat} {pos : Nat}
    (h : pos + data.length ≤ buf.length) :
    (storeAt buf pos data).length = buf.length := by
  simp only [storeAt, List.length_append, List.length_take, List.length_drop]
  omega

theorem storeAt_get_left {buf data : List Nat} {pos i : Nat} (hi : i < pos)
    (hp : pos ≤ buf.length) :
    (storeAt buf pos data).get? i = buf.get? i := by
  have hlen : (buf.take pos).length = pos := by
    simp only [List.length_take]
    omega
  rw [storeAt, List.append_assoc, List.get?_append (by omega), List.get?_take hi]

theorem storeAt_get_mid {buf data : List Nat} {pos j : Nat} (hj : j < data.length)
    (hp : pos ≤ buf.length) :
    (storeAt buf pos data).get? (pos + j) = data.get? j := by
  have hlen : (buf.take pos).length = pos := by
    simp only [List.length_take]
    omega
  rw [storeAt, List.append_assoc, List.get?_append_right (by omega),
    List.get?_append (by omega), hlen]
  simp

theorem putBytes_offset (bs : List Nat) (st : EncState) :
    (putBytes bs st).offset = st.offset + bs.length := rfl

theorem putBytes_length {bs : List Nat} {st : EncState}
    (h : st.offset + bs.length ≤ st.buffer.length) :
    (putBytes bs st).buffer.length = st.buffer.length := storeAt_length h

theorem putBytes_get_left {bs : List Nat} {st : EncState} {i : Nat}
    (hi : i < st.offset) (hp : st.offset ≤ st.buffer.length) :
    (putBytes bs st).buffer.get? i = st.buffer.get? i := storeAt_get_left hi hp

theorem putBytes_get_mid {bs : List Nat} {st : EncState} {j : Nat}
    (hj : j < bs.length) (hp : st.offset ≤ st.buffer.length) :
    (putBytes bs st).buffer.get? (st.offset + j) = bs.get? j := storeAt_get_mid hj hp

theorem growIfNeeded_offset (n : Nat) (st : EncState) :
    (growIfNeeded n st).offset = st.offset := by
  simp only [growIfNeeded]
  split <;> rfl

theorem growIfNeeded_length (n : Nat) (st : EncState) :
    st.offset + n ≤ (growIfNeeded n st).buffer.length := by
  simp only [growIfNeeded]
  split
  · dsimp only
    simp only [storeAt, List.length_append, List.length_take, List.length_drop,
      List.length_replicate]
    have h1 : st.buffer.length * 2 ≤ max (st.buffer.length * 2) (st.offset + n) :=
      Nat.le_max_left _ _
    have h2 : st.offset + n ≤ max (st.buffer.length * 2) (st.offset + n) :=
      Nat.le_max_right _ _
    omega
  · omega

/-- C7: a MessagePack map decoded in default (speculative) mode yields,
when every decoded key is a primitive (boolean/number/text), the plain
object built in one pass by assigning each coerced key; and when any
decoded key is a composite value (array, mapping, extension, or any
other non-primitive), the partially built object is abandoned, the
cursor is rewound to the map's starting offset, and the whole map is
re-decoded once into an ES6 Map holding the original decoded keys with
no coercion. -/
theorem mapDecode_speculative_policy (buf : List Nat) (opts : DecodeOpts)
    (fuel keyCount off : Nat) (kvs : List (DVal × DVal)) (off2 : Nat)
    (hraw : rawMapEntries buf opts fuel keyCount off = .ok (kvs, off2)) :
    ((∀ p ∈ kvs, isPrimitiveBNT (p : DVal × DVal).1 = true) →
      takeMap buf opts fuel keyCount false off = .ok (.obj (objOfPairs [] kvs), off2))
    ∧ ((∃ p ∈ kvs, isCompositeVal (p : DVal × DVal).1 = true) →
      takeMap buf opts fuel keyCount false off = .ok (.map (es6OfPairs [] kvs), off2)) := by
  have hs := takeMapSpecLoop_raw buf opts fuel off keyCount keyCount off kvs off2 [] hraw
  constructor
  · intro hall
    have h1 := hs.1 (fun p hp => isPrimitiveBNT_not_object (hall p hp))
    simpa [takeMap] using h1
  · intro hex
    obtain ⟨p, hp, hc⟩ := hex
    have h2 := hs.2 ⟨p, hp, isCompositeVal_object hc⟩
    have h3 := takeMapES6Loop_eq_raw buf opts fuel keyCount off kvs off2 [] hraw
    rw [h3] at h2
    simpa [takeMap] using h2

/-- Witness for mapDecode_speculative_policy: a one-entry map with a text
key decodes in one pass into a plain object, and a one-entry map whose
key is an array rewinds and decodes into an ES6 Map. -/
theorem mapDecode_speculative_policy_witness :
    takeMap [0xa1, 0x61, 0x05] DECODE_OPTS 3 1 false 0 = .ok (.obj [("a", .num 5)], 3)
    ∧ takeMap [0x90, 0x05] DECODE_OPTS 3 1 false 0 = .ok (.map [(.arr [], .num 5)], 2) := by
  have h1 : rawMapEntries [0xa1, 0x61, 0x05] DECODE_OPTS 3 1 0 =
      .ok ([(.str "a", .num 5)], 3) := by
    simp [rawMapEntries, takeGeneric, DECODE_OPTS, getByte, takeStringVal, takeBinary,
      show utf8DecodeString [97] = some "a" from by decide, lookupType_eq, typeLookupFn,
      and_fifteen, and_thirtyone, Except.bind, bind, pure, Except.pure]
  have h2 : rawMapEntries [0x90, 0x05] DECODE_OPTS 3 1 0 =
      .ok ([(.arr [], .num 5)], 2) := by
    simp [rawMapEntries, takeGeneric, DECODE_OPTS, getByte, takeArrayLoop, lookupType_eq,
      typeLookupFn, and_fifteen, and_thirtyone, Except.bind, bind, pure, Except.pure]
  constructor
  · have hobj := (mapDecode_speculative_policy _ _ _ _ _ _ _ h1).1 (by decide)
    simpa [objOfPairs, List.foldl, objInsert, toPropertyKey] using hobj
  · have hmap := (mapDecode_speculative_policy _ _ _ _ _ _ _ h2).2
      ⟨(.arr [], .num 5), by simp, by decide⟩
    simpa [es6OfPairs, List.foldl, mapSet] using hmap

/-- C8: a leading byte 0xC1 (the reserved, never-used MessagePack byte)
decodes to the explicit absent marker undefined, advancing the cursor by
one byte, and raises no error. -/
theorem neverUsed_byte_decodes_undefined (buf : List Nat) (opts : DecodeOpts)
    (fuel off : Nat) (h : buf.get? off = some 0xc1) :
    takeGeneric buf opts (fuel + 1) off = .ok (.undef, off + 1) := by
  simp only [takeGeneric, getByte, h, lookupType_eq]
  norm_num [typeLookupFn]

/-- Witness for neverUsed_byte_decodes_undefined on the one-byte input
0xC1. -/
theorem neverUsed_byte_decodes_undefined_witness :
    ([0xc1] : List Nat).get? 0 = some 0xc1
    ∧ takeGeneric [0xc1] DECODE_OPTS 1 0 = .ok (.undef, 1) :=
  ⟨by decide, neverUsed_byte_decodes_undefined [0xc1] DECODE_OPTS 0 0 (by decide)⟩

/-- C9: encoding a value whose typeof is "function" or "symbol" writes
nothing at all and returns an empty byte sequence without raising,
because the typeof switch of recursiveEncode has no branch for those
types; the module state is left exactly as it was. -/
theorem encode_function_symbol_empty (st : EncState) (reserve : Nat) :
    encode .func reserve st = .ok ([], st) ∧ encode .symbol reserve st = .ok ([], st) := by
  constructor <;>
    · simp only [encode, encodeView, recursiveEncode]
      split <;> simp

set_option maxRecDepth 4096 in
/-- C10: the 256-entry dispatch table is total and matches the
MessagePack layout: 0x00-0x7f map to PosFixInt (0), 0x80-0x8f to
FixMap (1), 0x90-0x9f to FixArray (2), 0xa0-0xbf to FixString (3),
0xc0-0xdf to the thirty-two distinct fixed-tag categories 4..35 in wire
order, and 0xe0-0xff to NegFixInt (36); every entry is one of the 37
categories handled by the takeGeneric switch, and the fixed-tag block is
injective. -/
theorem dispatch_table_total_layout :
    typeLookup.length = 256
    ∧ (∀ b, b < 256 →
        typeLookup.getD b 0 =
          (if b < 0x80 then 0 else if b < 0x90 then 1 else if b < 0xa0 then 2
           else if b < 0xc0 then 3 else if b < 0xe0 then b - 188 else 36))
    ∧ (∀ b, b < 256 → typeLookup.getD b 0 ≤ 36)
    ∧ (∀ b1, 0xc0 ≤ b1 → b1 < 0xe0 → ∀ b2, 0xc0 ≤ b2 → b2 < 0xe0 →
        typeLookup.getD b1 0 = typeLookup.getD b2 0 → b1 = b2) := by
  refine ⟨by decide, ?_, ?_, ?_⟩
  · intro b hb
    rw [show typeLookup.getD b 0 = typeLookupFn b from lookupType_eq b]
    simp only [typeLookupFn]
    split_ifs <;> omega
  · intro b hb
    rw [show typeLookup.getD b 0 = typeLookupFn b from lookupType_eq b]
    simp only [typeLookupFn]
    split_ifs <;> omega
  · intro b1 h1 h2 b2 h3 h4 he
    rw [show typeLookup.getD b1 0 = typeLookupFn b1 from lookupType_eq b1,
      show typeLookup.getD b2 0 = typeLookupFn b2 from lookupType_eq b2] at he
    simp only [typeLookupFn] at he
    split_ifs at he <;> omega

/-- Witness for dispatch_table_total_layout at byte 0xC1. -/
theorem dispatch_table_total_layout_witness :
    (0xc1 : Nat) < 256 ∧ typeLookup.getD 0xc1 0 ≤ 36 :=
  ⟨by decide, dispatch_table_total_layout.2.2.1 0xc1 (by decide)⟩

/-- C1 (failing input): the round-trip law decode(encode(v)) = v fails at
the negative safe integer v = -200.  The encoder takes the int8 branch
for every value down to -256, so -200 is written as the int8 tag 0xd0
with the wrapped byte 56, and decoding returns 56. -/
theorem roundtrip_fails_for_minus_200 :
    encodeBytes (.num (-200)) = .ok [0xd0, 56]
    ∧ decodeTop [0xd0, 56] = .ok (.num 56)
    ∧ DVal.num 56 ≠ DVal.num (-200) := by
  refine ⟨?_, ?_, by simp⟩
  · simp [encodeBytes, encode, encodeView, ENC_INIT, recursiveEncode, writeNumber,
      isSafeInteger, uncheckedWriteInt, putI8, putU8, putBytes, growIfNeeded, storeAt]
    decide
  · simp [decodeTop, takeGeneric, DECODE_OPTS, getByte, takeInt8, lookupType_eq,
      typeLookupFn, Except.bind, bind, pure, Except.pure]

set_option maxRecDepth 8192 in
/-- C2 (failing input): for n = -129 the claim requires the 16-bit signed
tag 0xd1, but the encoder's int8 guard accepts every value down to -256,
so it emits 0xd0 with the wrapped byte 127, which decodes to +127. -/
theorem negative_int_width_bug :
    (uncheckedWriteInt (-129) ENC_INIT).offset = 2
    ∧ (uncheckedWriteInt (-129) ENC_INIT).buffer.take 2 = [0xd0, 127]
    ∧ (0xd0 : Nat) ≠ 0xd1
    ∧ decodeTop [0xd0, 127] = .ok (.num 127) := by
  refine ⟨by decide, by decide, by decide, ?_⟩
  simp [decodeTop, takeGeneric, DECODE_OPTS, getByte, takeInt8, lookupType_eq,
    typeLookupFn, Except.bind, bind, pure, Except.pure]

/-- C3 (failing input): the Date extension decoder handles 4- and 8-byte
payloads, but its 12-byte case never returns: it computes and
range-checks the milliseconds and then falls through into the default
branch, so every 12-byte payload (such as the one the encoder itself
produces for a pre-epoch Date) raises the invalid-data-length
RangeError. -/
theorem timestamp_12byte_decode_bug :
    decodeDate (List.replicate 12 0) =
      .error "msgpack: decodeDate (ext -1): invalid data length (12)"
    ∧ decodeDate [0, 0, 0, 1] = .ok 1000
    ∧ decodeDate [0, 0, 0, 4, 0, 0, 0, 2] = .ok 2000
    ∧ decodeDate (List.replicate 5 0) =
      .error "msgpack: decodeDate (ext -1): invalid data length (5)"
    ∧ takeExt ([0xff] ++ List.replicate 12 0) 12 0 =
      .error "msgpack: decodeDate (ext -1): invalid data length (12)"
    ∧ (encodeDate (-1000)).length = 12 := by
  refine ⟨by rfl, by rfl, by rfl, by rfl, by rfl, by decide⟩

/-- C4 (failing input): the public encode snapshots the module state and
restores it after encodeView returns, but the restore is skipped when
encodeView throws, so a nested encode that raises (here: a BigInt of
2^64) leaves the module offset at 0 instead of the outer call's saved
offset 3; on a normal nested return the state is restored. -/
theorem nested_encode_restore_bug :
    encode (.bool true) 0 { buffer := List.replicate 4 9, offset := 3 } =
      .ok ([0xc3], { buffer := List.replicate 4 9, offset := 3 })
    ∧ encode (.bigint (2 ^ 64)) 0 { buffer := List.replicate 4 9, offset := 3 } =
      .error ("[msgpack-es] cannot encode: BigInt (18446744073709551616) is >= 2^64",
        { buffer := List.replicate 4 9, offset := 0 })
    ∧ ({ buffer := List.replicate 4 9, offset := 0 } : EncState).offset ≠
        ({ buffer := List.replicate 4 9, offset := 3 } : EncState).offset := by
  refine ⟨?_, ?_, by decide⟩
  · simp [encode, encodeView, recursiveEncode, writeBool, putU8, putBytes, growIfNeeded,
      storeAt]
    decide
  · simp [encode, encodeView, recursiveEncode, writeBigInt, isSafeInteger, rangeError]
    decide

/-- C5 (failing input): for strings and binary the claim requires a range
error naming the 2^32-1 limit beyond that length, but the third guard of
writeBytes tests the ambient global named length instead of data.length,
so a payload of exactly 2^32 bytes succeeds: the 32-bit header branch is
taken with its tag byte and the length field wraps to zero instead of
raising. -/
theorem writeBytes_length_cap_bug (data : List Nat) (st : EncState)
    (h : data.length = 2 ^ 32) :
    (writeBytes data 0xc4 0xc5 0xc6 st).isOk = true
    ∧ ∀ stR, writeBytes data 0xc4 0xc5 0xc6 st = .ok stR →
        stR.buffer.get? st.offset = some 0xc6
        ∧ stR.buffer.get? (st.offset + 1) = some 0
        ∧ stR.buffer.get? (st.offset + 2) = some 0
        ∧ stR.buffer.get? (st.offset + 3) = some 0
        ∧ stR.buffer.get? (st.offset + 4) = some 0
        ∧ stR.offset = st.offset + 5 + data.length := by
  have h1 : ¬ (data.length < 256) := by omega
  have h2 : ¬ (data.length < 65536) := by omega
  have h3 : ambientWindowLength < U32_CAP := by norm_num [ambientWindowLength, U32_CAP]
  have hres : writeBytes data 0xc4 0xc5 0xc6 st =
      .ok (putBytes data (putU32 (data.length : Int)
        (putU8 0xc6 (growIfNeeded (5 + data.length) st)))) := by
    simp only [writeBytes, if_neg h1, if_neg h2, if_pos h3, bind, Except.bind, pure,
      Except.pure]
    norm_num
  refine ⟨by rw [hres]; rfl, ?_⟩
  intro stR hstR
  rw [hres] at hstR
  have hstR2 : stR = putBytes data (putU32 (data.length : Int)
      (putU8 0xc6 (growIfNeeded (5 + data.length) st))) := by
    cases hstR
    rfl
  subst hstR2
  have hgoff : (growIfNeeded (5 + data.length) st).offset = st.offset :=
    growIfNeeded_offset _ _
  have hglen : st.offset + (5 + data.length) ≤
      (growIfNeeded (5 + data.length) st).buffer.length :=
    growIfNeeded_length _ _
  have e1 : putU8 0xc6 (growIfNeeded (5 + data.length) st) =
      putBytes [0xc6] (growIfNeeded (5 + data.length) st) := rfl
  have e2 : ∀ s, putU32 (data.length : Int) s = putBytes [0, 0, 0, 0] s := by
    intro s
    rw [putU32, h]
    norm_num [u32BE]
  rw [e1, e2]
  have hs1off : (putBytes [0xc6] (growIfNeeded (5 + data.length) st)).offset =
      st.offset + 1 := by
    rw [putBytes_offset, hgoff]
    rfl
  have hs1len : (putBytes [0xc6] (growIfNeeded (5 + data.length) st)).buffer.length =
      (growIfNeeded (5 + data.length) st).buffer.length :=
    putBytes_length (by simp only [List.length_cons, List.length_nil, hgoff]; omega)
  have hb0 : (putBytes [0xc6] (growIfNeeded (5 + data.length) st)).buffer.get? st.offset =
      some 0xc6 := by
    have hmid := @putBytes_get_mid [0xc6] (growIfNeeded (5 + data.length) st) 0
      (by simp) (by omega)
    rw [hgoff] at hmid
    simpa using hmid
  set s1 := putBytes [0xc6] (growIfNeeded (5 + data.length) st) with hs1def
  have hs2off : (putBytes [0, 0, 0, 0] s1).offset = st.offset + 5 := by
    rw [putBytes_offset, hs1off]
    rfl
  have hs2len : (putBytes [0, 0, 0, 0] s1).buffer.length = s1.buffer.length :=
    putBytes_length (by simp only [List.length_cons, List.length_nil]; omega)
  have hb0b : (putBytes [0, 0, 0, 0] s1).buffer.get? st.offset = some 0xc6 := by
    rw [putBytes_get_left (by omega) (by omega), hb0]
  have hfield : ∀ j, j < 4 →
      (putBytes [0, 0, 0, 0] s1).buffer.get? (st.offset + 1 + j) = some 0 := by
    intro j hj
    have hmid := @putBytes_get_mid [0, 0, 0, 0] s1 j (by simpa)
      (by omega)
    rw [hs1off] at hmid
    rw [hmid]
    interval_cases j <;> rfl
  set s2 := putBytes [0, 0, 0, 0] s1 with hs2def
  have hp2 : s2.offset ≤ s2.buffer.length := by omega
  refine ⟨?_, ?_, ?_, ?_, ?_, ?_⟩
  · rw [putBytes_get_left (by omega) hp2, hb0b]
  · rw [putBytes_get_left (by omega) hp2]
    have hf := hfield 0 (by omega)
    simpa using hf
  · rw [putBytes_get_left (by omega) hp2]
    have hf := hfield 1 (by omega)
    simpa using hf
  · rw [putBytes_get_left (by omega) hp2]
    have hf := hfield 2 (by omega)
    simpa using hf
  · rw [putBytes_get_left (by omega) hp2]
    have hf := hfield 3 (by omega)
    simpa using hf
  · rw [putBytes_offset, hs2off]

/-- Witness for writeBytes_length_cap_bug: a 2^32-byte buffer is accepted
without a range error. -/
theorem writeBytes_length_cap_bug_witness :
    (List.replicate (2 ^ 32) (0 : Nat)).length = 2 ^ 32
    ∧ (writeBytes (List.replicate (2 ^ 32) 0) 0xc4 0xc5 0xc6 ENC_INIT).isOk = true :=
  ⟨List.length_replicate (2 ^ 32) 0,
    (writeBytes_length_cap_bug (List.replicate (2 ^ 32) 0) ENC_INIT
      (List.length_replicate (2 ^ 32) 0)).1⟩

theorem foldPut_preserve : ∀ (chunks : List (List Nat)) (s : EncState) (i : Nat),
    s.offset + (chunks.map List.length).sum ≤ s.buffer.length → i < s.offset →
    (chunks.foldl (fun s2 c => putBytes c s2) s).buffer.get? i = s.buffer.get? i := by
  intro chunks
  induction chunks with
  | nil => intro s i h hi; rfl
  | cons c rest ih =>
    intro s i h hi
    simp only [List.map_cons, List.sum_cons] at h
    have hp : s.offset ≤ s.buffer.length := by omega
    have hlen : (putBytes c s).buffer.length = s.buffer.length :=
      putBytes_length (by omega)
    have hoff : (putBytes c s).offset = s.offset + c.length := putBytes_offset c s
    simp only [List.foldl_cons]
    rw [ih (putBytes c s) i (by omega) (by omega)]
    exact putBytes_get_left hi hp

theorem foldPut_tag (chunks : List (List Nat)) (g : EncState) (tag : Nat)
    (htag : tag < 256)
    (h : g.offset + 1 + (chunks.map List.length).sum ≤ g.buffer.length) :
    (chunks.foldl (fun s2 c => putBytes c s2) (putBytes [tag] g)).buffer.get? g.offset =
      some tag := by
  have h1 : (putBytes [tag] g).buffer.get? g.offset = some tag := by
    have hmid := @putBytes_get_mid [tag] g 0 (by simp) (by omega)
    simpa using hmid
  have hoff : (putBytes [tag] g).offset = g.offset + 1 := by
    rw [putBytes_offset]
    rfl
  have hlen : (putBytes [tag] g).buffer.length = g.buffer.length :=
    putBytes_length (by simp only [List.length_cons, List.length_nil]; omega)
  rw [foldPut_preserve chunks (putBytes [tag] g) g.offset (by omega) (by omega), h1]

set_option maxRecDepth 8192 in
/-- C6 (counterexample): a registered extension payload of exactly one
byte does not get the claimed fixext1 tag 0xd4; the settled writeExt
emits the 16-bit length-prefixed tag 0xc8 instead. -/
theorem ext_one_byte_payload_counterexample :
    writeExt 5 [42] ENC_INIT =
      .ok { buffer := [0xc8, 0, 1, 5, 42] ++ List.replicate 123 0, offset := 5 }
    ∧ (0xc8 : Nat) ≠ 0xd4 := by
  constructor
  · rfl
  · decide

/-- C6 (amended): writeExt succeeds exactly for payloads below 2^32
bytes; an 8-byte payload gets the one-byte-overhead fixext8 tag 0xd7,
and every other size gets the 16-bit (0xc8) or 32-bit (0xc9)
length-prefixed extension tag by smallest width; the fixext 1/2/4/16
and ext 8 tags are never emitted. -/
theorem writeExt_tag_selection (t : Int) (data : List Nat) (st : EncState) :
    ((writeExt t data st).isOk = true ↔ data.length < 2 ^ 32)
    ∧ ∀ stR, writeExt t data st = .ok stR →
        stR.buffer.get? st.offset =
          some (if data.length = 8 then 0xd7
                else if data.length < 2 ^ 16 then 0xc8 else 0xc9) := by
  by_cases h8 : data.length = 8
  · have hres : writeExt t data st =
        .ok (putBytes data (putU8 t (putU8 0xd7 (growIfNeeded 10 st)))) := by
      simp only [writeExt, if_pos h8]
    constructor
    · rw [hres]
      constructor
      · intro _
        omega
      · intro _
        rfl
    · intro stR hstR
      rw [hres] at hstR
      cases hstR
      have hglen : st.offset + 10 ≤ (growIfNeeded 10 st).buffer.length :=
        growIfNeeded_length _ _
      have hgoff : (growIfNeeded 10 st).offset = st.offset := growIfNeeded_offset _ _
      have hfold : putBytes data (putU8 t (putU8 0xd7 (growIfNeeded 10 st))) =
          List.foldl (fun s2 c => putBytes c s2)
            (putBytes [0xd7] (growIfNeeded 10 st)) [[(t.emod 256).toNat], data] := rfl
      rw [hfold, if_pos h8]
      have := foldPut_tag [[(t.emod 256).toNat], data] (growIfNeeded 10 st) 0xd7
        (by decide)
        (by
          simp only [List.map_cons, List.map_nil, List.sum_cons, List.sum_nil,
            List.length_cons, List.length_nil, hgoff]
          omega)
      rw [hgoff] at this
      exact this
  · by_cases h16 : data.length < 65536
    · have hres : writeExt t data st =
          .ok (putBytes data (putU8 t (putU16 data.length
            (putU8 0xc8 (growIfNeeded (4 + data.length) st))))) := by
        simp only [writeExt, if_neg h8, if_pos h16]
      constructor
      · rw [hres]
        constructor
        · intro _
          omega
        · intro _
          rfl
      · intro stR hstR
        rw [hres] at hstR
        cases hstR
        have hglen : st.offset + (4 + data.length) ≤
            (growIfNeeded (4 + data.length) st).buffer.length :=
          growIfNeeded_length _ _
        have hgoff : (growIfNeeded (4 + data.length) st).offset = st.offset :=
          growIfNeeded_offset _ _
        have hfold : putBytes data (putU8 t (putU16 data.length
            (putU8 0xc8 (growIfNeeded (4 + data.length) st)))) =
            List.foldl (fun s2 c => putBytes c s2)
              (putBytes [0xc8] (growIfNeeded (4 + data.length) st))
              [u16BE (((data.length : Int)).emod (2 ^ 16)).toNat, [(t.emod 256).toNat],
                data] := rfl
        rw [hfold, if_neg h8, if_pos (show data.length < 2 ^ 16 by omega)]
        have := foldPut_tag
          [u16BE (((data.length : Int)).emod (2 ^ 16)).toNat, [(t.emod 256).toNat], data]
          (growIfNeeded (4 + data.length) st) 0xc8 (by decide)
          (by
            simp only [List.map_cons, List.map_nil, List.sum_cons, List.sum_nil,
              List.length_cons, List.length_nil, u16BE, hgoff]
            omega)
        rw [hgoff] at this
        exact this
    · by_cases h32 : data.length < U32_CAP
      · have hres : writeExt t data st =
            .ok (putBytes data (putU8 t (putU32 data.length
              (putU8 0xc9 (growIfNeeded (6 + data.length) st))))) := by
          simp only [writeExt, if_neg h8, if_neg h16, if_pos h32]
        constructor
        · rw [hres]
          constructor
          · intro _
            have : data.length < U32_CAP := h32
            simpa [U32_CAP] using this
          · intro _
            rfl
        · intro stR hstR
          rw [hres] at hstR
          cases hstR
          have hglen : st.offset + (6 + data.length) ≤
              (growIfNeeded (6 + data.length) st).buffer.length :=
            growIfNeeded_length _ _
          have hgoff : (growIfNeeded (6 + data.length) st).offset = st.offset :=
            growIfNeeded_offset _ _
          have hfold : putBytes data (putU8 t (putU32 data.length
              (putU8 0xc9 (growIfNeeded (6 + data.length) st)))) =
              List.foldl (fun s2 c => putBytes c s2)
                (putBytes [0xc9] (growIfNeeded (6 + data.length) st))
                [u32BE (((data.length : Int)).emod (2 ^ 32)).toNat, [(t.emod 256).toNat],
                  data] := rfl
          rw [hfold, if_neg h8, if_neg (show ¬data.length < 2 ^ 16 by omega)]
          have := foldPut_tag
            [u32BE (((data.length : Int)).emod (2 ^ 32)).toNat, [(t.emod 256).toNat], data]
            (growIfNeeded (6 + data.length) st) 0xc9 (by decide)
            (by
              simp only [List.map_cons, List.map_nil, List.sum_cons, List.sum_nil,
                List.length_cons, List.length_nil, u32BE, hgoff]
              omega)
          rw [hgoff] at this
          exact this
      · have hres : writeExt t data st =
            rangeError ("ext length (" ++ toString data.length ++ ") >= 2^32") st := by
          simp only [writeExt, if_neg h8, if_neg h16, if_neg h32]
        constructor
        · rw [hres]
          constructor
          · intro hok
            exact absurd hok (by simp [rangeError, Except.isOk, Except.toBool])
          · intro hlt
            exact absurd hlt (by simpa [U32_CAP] using h32)
        · intro stR hstR
          rw [hres] at hstR
          exact absurd hstR (by simp [rangeError])

/-- Witness for writeExt_tag_selection at an 8-byte payload. -/
theorem writeExt_tag_selection_witness :
    ((writeExt 7 (List.replicate 8 0) ENC_INIT).isOk = true ↔
      (List.replicate 8 (0 : Nat)).length < 2 ^ 32)
    ∧ (writeExt 7 (List.replicate 8 0) ENC_INIT).isOk = true :=
  ⟨(writeExt_tag_selection 7 (List.replicate 8 0) ENC_INIT).1,
    (writeExt_tag_selection 7 (List.replicate 8 0) ENC_INIT).1.mpr (by decide)⟩
